import Mathlib

/-
Verification of the helper routines in `lib/util/Mex/Utils.h` (namespace Mex,
struct Utils) of the libDirectional repository.

Modelling conventions:
- `Eigen::VectorXi` is modelled as `List Int`.
- An mxArray handle is modelled as a structure carrying the host-visible
  attributes these helpers read: the sparse flag (mxIsSparse), the dimension
  vector (mxGetNumberOfDimensions / mxGetDimensions), and the raw data
  pointer address (mxGetData), plus row/column counts where needed.
- The two C++ failure channels are kept distinct: mxAssert is a fatal
  assertion (`MexError.fatal`), `throw std::invalid_argument` is a
  recoverable error (`MexError.invalidArg`).
- Eigen's `head`/`tail` block reads are modelled by the total `List.take` /
  `List.drop` (they agree with Eigen whenever the block is in range); for
  the operations whose claims are about size preconditions, additional
  checked variants (`eigenTail`, `cwiseMinChecked`, `cwiseMaxChecked`,
  `isValidSliceChecked`) return `none` exactly when the corresponding Eigen
  size precondition is violated.
-/

namespace Mex

/-- The two error channels of the C++ code: `fatal` models `mxAssert`
failure (unrecoverable), `invalidArg` models `throw std::invalid_argument`
(recoverable). -/
inductive MexError where
  | fatal (msg : String)
  | invalidArg (msg : String)
deriving DecidableEq, Repr

/-- Model of an mxArray handle: exactly the attributes the helpers in
`Utils.h` query from the host API. -/
structure MxArray where
  sparse : Bool
  dims : List Int
  data : Nat
deriving DecidableEq, Repr

/-- `Eigen::Dynamic`, the "any size" sentinel used by `checkRows`/`checkCols`. -/
def Dynamic : Int := -1

/-- `Utils::getDimensions`: asserts the array is dense (fatal channel),
then copies the `mxGetNumberOfDimensions(array)` leading entries of
`mxGetDimensions(array)` into a vector; in the model the host dimension
data is the `dims` field, whose length is the number of axes. -/
def getDimensions (array : MxArray) : Except MexError (List Int) :=
  if array.sparse then Except.error (MexError.fatal "Array must be dense.")
  else Except.ok array.dims

/-- `Utils::expandSliceDims`: result has length `max |A| |B|`; entry `i` is
`max (if i < |A| then A(i) else 1) (if i < |B| then B(i) else 1)`, which is
exactly `max (A.getD i 1) (B.getD i 1)`. -/
def expandSliceDims (sliceDimsA sliceDimsB : List Int) : List Int :=
  (List.range (max sliceDimsA.length sliceDimsB.length)).map
    (fun i => max (sliceDimsA.getD i 1) (sliceDimsB.getD i 1))

/-- Eigen's `v.tail(n)` (the last `n` entries of `v`), with its size
precondition `0 <= n <= v.size()` made explicit: out of range yields
`none` (Eigen assertion failure). -/
def eigenTail (v : List Int) (n : Int) : Option (List Int) :=
  if 0 ≤ n ∧ n ≤ (v.length : Int) then some (v.drop (v.length - n.toNat))
  else none

/-- Eigen's `v.head(n)` (the first `n` entries of `v`), with its
block-range precondition `n <= v.size()` made explicit: out of range
yields `none` (Eigen assertion failure). -/
def eigenHead (v : List Int) (n : Nat) : Option (List Int) :=
  if n ≤ v.length then some (v.take n) else none

/-- `Utils::expandSlices` (full-shape overload): strips the two leading
axes of each input via `tail(size - 2)` and delegates to
`expandSliceDims`. The `tail` extraction carries Eigen's range
precondition via `eigenTail`. -/
def expandSlices (dimsA dimsB : List Int) : Option (List Int) :=
  match eigenTail dimsA ((dimsA.length : Int) - 2),
        eigenTail dimsB ((dimsB.length : Int) - 2) with
  | some tailA, some tailB => some (expandSliceDims tailA tailB)
  | _, _ => none

/-- `v.isZero()` for an integer Eigen vector: every coefficient is zero. -/
def isZero (v : List Int) : Bool := v.all (fun x => x == 0)

/-- `a.cwiseMin(b)` (total model; Eigen requires equal sizes). -/
def cwiseMin (a b : List Int) : List Int := List.zipWith min a b

/-- `a.cwiseMax(b)` (total model; Eigen requires equal sizes). -/
def cwiseMax (a b : List Int) : List Int := List.zipWith max a b

/-- `a.cwiseMin(b)` with Eigen's equal-size precondition made explicit. -/
def cwiseMinChecked (a b : List Int) : Option (List Int) :=
  if a.length = b.length then some (List.zipWith min a b) else none

/-- `a.cwiseMax(b)` with Eigen's equal-size precondition made explicit. -/
def cwiseMaxChecked (a b : List Int) : Option (List Int) :=
  if a.length = b.length then some (List.zipWith max a b) else none

/-- `Utils::isValidSlice`, total model: with `sliceDims := sliceMins.size()`,
splits the candidate into `sHead = slice.head(sliceDims)` and
`sTail = slice.tail(slice.size() - sliceDims)` (the block reads totalized
as `take`/`drop`); returns false for a short candidate (the value of the
code's explicit guard), the all-zero test on the whole candidate for empty
head, and otherwise the coefficient-wise bounds test
(`sliceMins.cwiseMin(sHead) == sliceMins` and
`sliceMaxs.cwiseMax(sHead) == sliceMaxs`) together with the tail-zero
condition. This model is faithful exactly where every Eigen block/cwise
precondition holds (equal-length bounds, candidate at least as long as the
bounds); the full behavior including the eager block materialization before
the guard and the short-circuiting of the final `&&` chain is captured by
`isValidSliceChecked` below. -/
def isValidSlice (slice sliceMins sliceMaxs : List Int) : Bool :=
  let sliceDims := sliceMins.length
  let sHead := slice.take sliceDims
  let sTail := slice.drop sliceDims
  if slice.length < sliceDims then
    false
  else if sHead.length = 0 then
    isZero sTail
  else
    (cwiseMin sliceMins sHead == sliceMins) &&
    (cwiseMax sliceMaxs sHead == sliceMaxs) &&
    (slice.length == sliceDims || isZero sTail)

/-- `Utils::isValidSlice` with every Eigen size precondition made explicit
and the C++ evaluation order kept: `sHead = slice.head(sliceDims)` and
`sTail = slice.tail(slice.size() - sliceDims)` are materialized before the
short-candidate guard (so a candidate shorter than the bounds fails the
block-range precondition and never reaches the guard, which is therefore
dead code, kept here as in the source), and the `&&` chain of the final
return short-circuits (a failed lower-bounds comparison returns false
without constructing the possibly mismatched `cwiseMax`). `none` marks a
violated Eigen precondition (assertion failure in debug builds,
negative-size allocation failure in release builds). -/
def isValidSliceChecked (slice sliceMins sliceMaxs : List Int) : Option Bool :=
  let sliceDims := sliceMins.length
  match eigenHead slice sliceDims,
        eigenTail slice ((slice.length : Int) - (sliceDims : Int)) with
  | some sHead, some sTail =>
    if slice.length < sliceDims then
      some false
    else if sHead.length = 0 then
      some (isZero sTail)
    else
      match cwiseMinChecked sliceMins sHead with
      | none => none
      | some lo =>
        if lo == sliceMins then
          match cwiseMaxChecked sliceMaxs sHead with
          | none => none
          | some hi =>
              some ((hi == sliceMaxs) &&
                (slice.length == sliceDims || isZero sTail))
        else
          some false
  | _, _ => none

/-- `Utils::checkArrayType<Scalar>`: `Traits<Scalar>::isValidArray` is an
external compile-time-dispatched predicate, modelled as an explicit
argument; an incompatible array raises invalid_argument, a compatible one
yields the raw data pointer (the reinterpreting cast is the identity on
the address). -/
def checkArrayType (isValidArray : MxArray → Bool) (array : MxArray) :
    Except MexError Nat :=
  if !(isValidArray array) then
    Except.error (MexError.invalidArg "MX array of invalid type.")
  else
    Except.ok array.data

/-- `Utils::checkRows<r>(int rows)`. -/
def checkRows (r : Int) (rows : Int) : Except MexError Int :=
  if r = Dynamic ∨ r = rows then
    Except.ok rows
  else
    Except.error (MexError.invalidArg
      ("Mismatch between given (" ++ toString rows ++
       ") and expected (" ++ toString r ++ ") number of rows."))

/-- `Utils::checkCols<c>(int cols)`. -/
def checkCols (c : Int) (cols : Int) : Except MexError Int :=
  if c = Dynamic ∨ c = cols then
    Except.ok cols
  else
    Except.error (MexError.invalidArg
      ("Mismatch between given (" ++ toString cols ++
       ") and expected (" ++ toString c ++ ") number of columns."))

/-! ### Helper lemmas -/

theorem getD_map_range (n i : Nat) (f : Nat → Int) (h : i < n) :
    ((List.range n).map f).getD i 0 = f i := by
  have hl : i < ((List.range n).map f).length := by simpa using h
  rw [List.getD_eq_getElem _ _ hl, List.getElem_map, List.getElem_range]

theorem zipWith_min_eq_iff (a b : List Int) (h : a.length = b.length) :
    (List.zipWith min a b = a) ↔
      ∀ i, i < a.length → a.getD i 0 ≤ b.getD i 0 := by
  induction a generalizing b with
  | nil => simp
  | cons x xs ih =>
    cases b with
    | nil => simp at h
    | cons y ys =>
      simp only [List.zipWith, List.cons.injEq, List.length_cons] at *
      rw [ih ys (by omega)]
      constructor
      · rintro ⟨h1, h2⟩ i hi
        cases i with
        | zero => simpa [min_eq_left_iff] using h1
        | succ j => exact h2 j (by omega)
      · intro hall
        refine ⟨?_, fun i hi => ?_⟩
        · have := hall 0 (by omega)
          simpa [min_eq_left_iff] using this
        · exact hall (i + 1) (by omega)

theorem zipWith_max_eq_iff (a b : List Int) (h : a.length = b.length) :
    (List.zipWith max a b = a) ↔
      ∀ i, i < a.length → b.getD i 0 ≤ a.getD i 0 := by
  induction a generalizing b with
  | nil => simp
  | cons x xs ih =>
    cases b with
    | nil => simp at h
    | cons y ys =>
      simp only [List.zipWith, List.cons.injEq, List.length_cons] at *
      rw [ih ys (by omega)]
      constructor
      · rintro ⟨h1, h2⟩ i hi
        cases i with
        | zero => simpa [max_eq_left_iff] using h1
        | succ j => exact h2 j (by omega)
      · intro hall
        refine ⟨?_, fun i hi => ?_⟩
        · have := hall 0 (by omega)
          simpa [max_eq_left_iff] using this
        · exact hall (i + 1) (by omega)

theorem getD_take (l : List Int) (n i : Nat) (d : Int) (h : i < n) :
    (l.take n).getD i d = l.getD i d := by
  induction l generalizing n i with
  | nil => simp
  | cons x xs ih =>
    cases n with
    | zero => omega
    | succ m =>
      cases i with
      | zero => simp [List.take]
      | succ j => simpa [List.take, List.getD] using ih m j (by omega)

theorem isZero_drop_iff (l : List Int) (n : Nat) :
    isZero (l.drop n) = true ↔
      ∀ i, n ≤ i → i < l.length → l.getD i 0 = 0 := by
  induction l generalizing n with
  | nil => simp [isZero]
  | cons x xs ih =>
    cases n with
    | zero =>
      simp only [List.drop, isZero, List.all_cons, Bool.and_eq_true, beq_iff_eq,
        List.length_cons]
      have h0 := ih 0
      rw [List.drop_zero] at h0
      rw [show (xs.all fun v => v == 0) = isZero xs from rfl, h0]
      constructor
      · rintro ⟨hx, hrest⟩ i _ hi
        cases i with
        | zero => simpa using hx
        | succ j => simpa [List.getD] using hrest j (by omega) (by omega)
      · intro hall
        refine ⟨by simpa using hall 0 (by omega) (by omega), fun i _ hi => ?_⟩
        simpa [List.getD] using hall (i + 1) (by omega) (by omega)
    | succ m =>
      simp only [List.drop, List.length_cons]
      rw [ih m]
      constructor
      · intro hall i hni hi
        cases i with
        | zero => omega
        | succ j => simpa [List.getD] using hall j (by omega) (by omega)
      · intro hall i hni hi
        simpa [List.getD] using hall (i + 1) (by omega) (by omega)

/-! ### Claim theorems -/

/-- Claim C1 (code bug): at the failing input (candidate [3] shorter than
the bounds length D = 2), the faithful embedding fails an Eigen
block-range precondition — the code materializes `slice.head(2)` and
`slice.tail(-1)` before its short-candidate guard — instead of returning
false; the false claimed by the spec is exactly the value of the code's
own (unreachable) guard, visible in the total model. -/
theorem spec_C1 :
    isValidSliceChecked [3] [2, 2] [5, 5] = none ∧
      isValidSlice [3] [2, 2] [5, 5] = false := by
  decide

/-- Claim C3: the merge expandSliceDims A B has length max (len A) (len B)
and its i-th element is max (A i, defaulting to 1 out of range)
(B i, defaulting to 1 out of range). -/
theorem spec_C3 (a b : List Int) :
    (expandSliceDims a b).length = max a.length b.length ∧
      ∀ i, i < max a.length b.length →
        (expandSliceDims a b).getD i 0 = max (a.getD i 1) (b.getD i 1) := by
  refine ⟨by simp [expandSliceDims], fun i hi => ?_⟩
  simp only [expandSliceDims]
  exact getD_map_range _ _ _ hi

/-- Witness for C3 at a concrete input. -/
theorem spec_C3_witness :
    (expandSliceDims [3, 1, 4] [2, 5]).length =
        max ([3, 1, 4] : List Int).length ([2, 5] : List Int).length ∧
      (expandSliceDims [3, 1, 4] [2, 5]).getD 1 0 =
        max (([3, 1, 4] : List Int).getD 1 1) (([2, 5] : List Int).getD 1 1) :=
  ⟨(spec_C3 [3, 1, 4] [2, 5]).1, (spec_C3 [3, 1, 4] [2, 5]).2 1 (by decide)⟩

/-- Claim C4: the slice-shape merge is commutative. -/
theorem spec_C4 (a b : List Int) :
    expandSliceDims a b = expandSliceDims b a := by
  unfold expandSliceDims
  have hf : (fun i => max (a.getD i 1) (b.getD i 1)) =
      (fun i => max (b.getD i 1) (a.getD i 1)) :=
    funext fun i => max_comm _ _
  rw [Nat.max_comm, hf]

/-- Claim C5: for inputs of length at least 2, the full-shape overload
expandSlices equals expandSliceDims applied to the inputs with their two
leading elements removed. -/
theorem spec_C5 (a b : List Int) (ha : 2 ≤ a.length) (hb : 2 ≤ b.length) :
    expandSlices a b = some (expandSliceDims (a.drop 2) (b.drop 2)) := by
  simp only [expandSlices, eigenTail]
  rw [if_pos (by omega), if_pos (by omega)]
  have hta : a.length - ((a.length : Int) - 2).toNat = 2 := by omega
  have htb : b.length - ((b.length : Int) - 2).toNat = 2 := by omega
  rw [hta, htb]

/-- Witness for C5 at a concrete input. -/
theorem spec_C5_witness :
    2 ≤ ([9, 9, 3, 4] : List Int).length ∧ 2 ≤ ([9, 9, 5] : List Int).length ∧
      expandSlices [9, 9, 3, 4] [9, 9, 5] =
        some (expandSliceDims (([9, 9, 3, 4] : List Int).drop 2)
          (([9, 9, 5] : List Int).drop 2)) :=
  ⟨by decide, by decide, spec_C5 [9, 9, 3, 4] [9, 9, 5] (by decide) (by decide)⟩

/-- Claim C9: the full-shape overload expandSlices has the unstated
precondition that both inputs have at least 2 elements: under it the
tail extraction is in range and the overload yields a result, while an
input of length 0 or 1 makes the extraction out of range (the checked
embedding yields none). -/
theorem spec_C9 (a b : List Int) :
    (2 ≤ a.length → 2 ≤ b.length → (expandSlices a b).isSome = true) ∧
      (a.length < 2 ∨ b.length < 2 → expandSlices a b = none) := by
  constructor
  · intro ha hb
    simp only [expandSlices, eigenTail]
    rw [if_pos (by omega), if_pos (by omega)]
    rfl
  · intro h
    rcases h with h | h
    · have hA : eigenTail a ((a.length : Int) - 2) = none := by
        simp only [eigenTail]
        rw [if_neg (by omega)]
      cases hB : eigenTail b ((b.length : Int) - 2) with
      | none => simp [expandSlices, hA, hB]
      | some tb => simp [expandSlices, hA, hB]
    · have hB : eigenTail b ((b.length : Int) - 2) = none := by
        simp only [eigenTail]
        rw [if_neg (by omega)]
      cases hA : eigenTail a ((a.length : Int) - 2) with
      | none => simp [expandSlices, hA, hB]
      | some ta => simp [expandSlices, hA, hB]

/-- Witness for C9: both conjuncts at concrete inputs. -/
theorem spec_C9_witness :
    (expandSlices [1, 2, 3] [4, 5]).isSome = true ∧
      expandSlices [1] [4, 5] = none :=
  ⟨(spec_C9 [1, 2, 3] [4, 5]).1 (by decide) (by decide),
   (spec_C9 [1] [4, 5]).2 (by decide)⟩

/-- Claim C6: checkRows (and likewise checkCols) returns the runtime count
unchanged when the expected count is the Dynamic sentinel or equals it, and
otherwise raises an invalid-argument error whose message contains both the
given and the expected count (as decimal substrings). -/
theorem spec_C6 (r n : Int) :
    ((r = Dynamic ∨ r = n) →
      checkRows r n = Except.ok n ∧ checkCols r n = Except.ok n) ∧
      (r ≠ Dynamic → r ≠ n →
        (∃ m, checkRows r n = Except.error (MexError.invalidArg m) ∧
          (∃ p q, m = p ++ toString n ++ q) ∧
          (∃ p q, m = p ++ toString r ++ q)) ∧
        (∃ m, checkCols r n = Except.error (MexError.invalidArg m) ∧
          (∃ p q, m = p ++ toString n ++ q) ∧
          (∃ p q, m = p ++ toString r ++ q))) := by
  constructor
  · intro h
    constructor
    · unfold checkRows
      rw [if_pos h]
    · unfold checkCols
      rw [if_pos h]
  · intro h1 h2
    have hcond : ¬(r = Dynamic ∨ r = n) := by tauto
    constructor
    · refine ⟨"Mismatch between given (" ++ toString n ++
        ") and expected (" ++ toString r ++ ") number of rows.", ?_, ?_, ?_⟩
      · unfold checkRows
        rw [if_neg hcond]
      · exact ⟨"Mismatch between given (",
          ") and expected (" ++ toString r ++ ") number of rows.",
          by simp [String.append_assoc]⟩
      · exact ⟨"Mismatch between given (" ++ toString n ++ ") and expected (",
          ") number of rows.", rfl⟩
    · refine ⟨"Mismatch between given (" ++ toString n ++
        ") and expected (" ++ toString r ++ ") number of columns.", ?_, ?_, ?_⟩
      · unfold checkCols
        rw [if_neg hcond]
      · exact ⟨"Mismatch between given (",
          ") and expected (" ++ toString r ++ ") number of columns.",
          by simp [String.append_assoc]⟩
      · exact ⟨"Mismatch between given (" ++ toString n ++ ") and expected (",
          ") number of columns.", rfl⟩

/-- Witness for C6: the Dynamic sentinel passes any count through, and a
concrete mismatch produces the error with both counts in the message. -/
theorem spec_C6_witness :
    (checkRows (-1) 7 = Except.ok 7 ∧ checkCols (-1) 7 = Except.ok 7) ∧
      (∃ m, checkRows 2 3 = Except.error (MexError.invalidArg m) ∧
        (∃ p q, m = p ++ toString (3 : Int) ++ q) ∧
        (∃ p q, m = p ++ toString (2 : Int) ++ q)) :=
  ⟨(spec_C6 (-1) 7).1 (Or.inl (by decide)),
   ((spec_C6 2 3).2 (by decide) (by decide)).1⟩

/-- Claim C7: checkArrayType raises the fixed invalid-argument error iff
the compatibility predicate rejects the array; on a compatible array with
a non-null host data pointer it returns that pointer (non-null, equal to
the raw data address). -/
theorem spec_C7 (isValidArray : MxArray → Bool) (array : MxArray) :
    (checkArrayType isValidArray array =
        Except.error (MexError.invalidArg "MX array of invalid type.") ↔
      isValidArray array = false) ∧
      (isValidArray array = true → array.data ≠ 0 →
        ∃ p, checkArrayType isValidArray array = Except.ok p ∧
          p = array.data ∧ p ≠ 0) := by
  constructor
  · cases hv : isValidArray array <;> simp [checkArrayType, hv]
  · intro hv hnz
    exact ⟨array.data, by simp [checkArrayType, hv], rfl, hnz⟩

/-- Witness for C7 at a concrete predicate and array. -/
theorem spec_C7_witness :
    ∃ p, checkArrayType (fun _ => true) ⟨false, [3, 4], 5⟩ = Except.ok p ∧
      p = (⟨false, [3, 4], 5⟩ : MxArray).data ∧ p ≠ 0 :=
  (spec_C7 (fun _ => true) ⟨false, [3, 4], 5⟩).2 rfl (by decide)

/-- Claim C8: on a dense array getDimensions returns the per-axis extents
(length = number of axes); on a sparse array it fails through the fatal
assertion channel, never through the recoverable invalid-argument channel. -/
theorem spec_C8 (array : MxArray) :
    (array.sparse = false →
      getDimensions array = Except.ok array.dims ∧
      ∀ l, getDimensions array = Except.ok l → l.length = array.dims.length) ∧
      (array.sparse = true →
        getDimensions array = Except.error (MexError.fatal "Array must be dense.") ∧
        ∀ m, getDimensions array ≠ Except.error (MexError.invalidArg m)) := by
  constructor
  · intro h
    refine ⟨by simp [getDimensions, h], fun l hl => ?_⟩
    simp only [getDimensions, h, Bool.false_eq_true, if_false] at hl
    cases hl
    rfl
  · intro h
    refine ⟨by simp [getDimensions, h], fun m hm => ?_⟩
    simp [getDimensions, h] at hm

/-- Claim C2: for equal-length bounds of common length D and a candidate of
length at least D, isValidSlice is true iff the head satisfies the bounds
elementwise and the tail beyond the bounds is all zero; in particular for
D = 0 it is true iff every candidate element is zero, and it is true on the
empty candidate with empty bounds. -/
theorem spec_C2 :
    (∀ slice sliceMins sliceMaxs : List Int,
      sliceMins.length = sliceMaxs.length →
      sliceMins.length ≤ slice.length →
      (isValidSlice slice sliceMins sliceMaxs = true ↔
        (∀ i, i < sliceMins.length →
          sliceMins.getD i 0 ≤ slice.getD i 0 ∧
            slice.getD i 0 ≤ sliceMaxs.getD i 0) ∧
        (∀ i, sliceMins.length ≤ i → i < slice.length → slice.getD i 0 = 0))) ∧
      (∀ slice : List Int,
        (isValidSlice slice [] [] = true ↔
          ∀ i, i < slice.length → slice.getD i 0 = 0)) ∧
      isValidSlice [] [] [] = true := by
  have main : ∀ slice sliceMins sliceMaxs : List Int,
      sliceMins.length = sliceMaxs.length →
      sliceMins.length ≤ slice.length →
      (isValidSlice slice sliceMins sliceMaxs = true ↔
        (∀ i, i < sliceMins.length →
          sliceMins.getD i 0 ≤ slice.getD i 0 ∧
            slice.getD i 0 ≤ sliceMaxs.getD i 0) ∧
        (∀ i, sliceMins.length ≤ i → i < slice.length → slice.getD i 0 = 0)) := by
    intro s mins maxs hlen hD
    simp only [isValidSlice, List.length_take]
    rw [if_neg (by omega)]
    by_cases hD0 : mins.length = 0
    · rw [if_pos (by omega)]
      rw [isZero_drop_iff]
      constructor
      · intro hz
        exact ⟨fun i hi => absurd hi (by omega), fun i h1 h2 => hz i h1 h2⟩
      · rintro ⟨_, h2⟩
        exact fun i h1a h1b => h2 i h1a h1b
    · rw [if_neg (by omega)]
      simp only [cwiseMin, cwiseMax, Bool.and_eq_true, Bool.or_eq_true,
        beq_iff_eq]
      rw [zipWith_min_eq_iff mins (s.take mins.length)
            (by simp only [List.length_take]; omega),
          zipWith_max_eq_iff maxs (s.take mins.length)
            (by simp only [List.length_take]; omega)]
      constructor
      · rintro ⟨⟨hmin, hmax⟩, htail⟩
        refine ⟨fun i hi => ⟨?_, ?_⟩, fun i hDi hi => ?_⟩
        · have h := hmin i hi
          rwa [getD_take _ _ _ _ hi] at h
        · have h := hmax i (by omega)
          rwa [getD_take _ _ _ _ (by omega)] at h
        · rcases htail with he | hz
          · omega
          · exact (isZero_drop_iff s mins.length).mp hz i hDi hi
      · rintro ⟨hhead, htail⟩
        refine ⟨⟨fun i hi => ?_, fun i hi => ?_⟩,
          Or.inr ((isZero_drop_iff s mins.length).mpr htail)⟩
        · rw [getD_take _ _ _ _ hi]
          exact (hhead i hi).1
        · rw [getD_take _ _ _ _ (show i < mins.length by omega)]
          exact (hhead i (by omega)).2
  refine ⟨main, fun s => ?_, by decide⟩
  have h := main s [] [] rfl (by simp)
  rw [h]
  constructor
  · rintro ⟨_, h2⟩
    exact fun i hi => h2 i (by simp) hi
  · intro hall
    exact ⟨fun i hi => absurd hi (by simp), fun i _ hi => hall i hi⟩

/-- Witness for C2 at the spec's concrete example (bounds 2..5 on two axes,
candidate with a trailing zero). -/
theorem spec_C2_witness :
    ([2, 2] : List Int).length = ([5, 5] : List Int).length ∧
      ([2, 2] : List Int).length ≤ ([3, 4, 0] : List Int).length ∧
      (isValidSlice [3, 4, 0] [2, 2] [5, 5] = true ↔
        (∀ i, i < ([2, 2] : List Int).length →
          ([2, 2] : List Int).getD i 0 ≤ ([3, 4, 0] : List Int).getD i 0 ∧
            ([3, 4, 0] : List Int).getD i 0 ≤ ([5, 5] : List Int).getD i 0) ∧
        (∀ i, ([2, 2] : List Int).length ≤ i →
          i < ([3, 4, 0] : List Int).length →
          ([3, 4, 0] : List Int).getD i 0 = 0)) :=
  ⟨by decide, by decide, spec_C2.1 [3, 4, 0] [2, 2] [5, 5] (by decide) (by decide)⟩

/-- Counterexample to claim C10 as stated: with equal bound lengths the
out-of-range branch of the faithful embedding is still reachable (a short
candidate fails the unguarded head/tail block extraction), and unequal
bound lengths do not always make the upper-bounds comparison out of range
(when the lower-bounds comparison fails, `&&` short-circuits and the code
returns false without constructing the mismatched `cwiseMax`). -/
theorem spec_C10_counterexample :
    (([2, 2] : List Int).length = ([5, 5] : List Int).length ∧
        isValidSliceChecked [3] [2, 2] [5, 5] = none) ∧
      (([2, 2] : List Int).length ≠ ([5] : List Int).length ∧
        isValidSliceChecked [1, 4] [2, 2] [5] = some false) := by
  decide

/-- Claim C10 (amended): isValidSlice takes D solely from the lower
bounds; under the unstated precondition that the two bounds vectors have
equal length, every elementwise comparison is in range and the checked
embedding agrees with the total one for candidates at least as long as the
bounds; a shorter candidate fails the unguarded head/tail block extraction
regardless; and unequal bound lengths make the comparison against the
upper bounds out of range exactly when that comparison is reached
(nonempty lower bounds, candidate at least as long, lower-bounds
comparison succeeding). -/
theorem spec_C10 (slice sliceMins sliceMaxs : List Int) :
    (sliceMins.length = sliceMaxs.length →
      sliceMins.length ≤ slice.length →
      isValidSliceChecked slice sliceMins sliceMaxs =
        some (isValidSlice slice sliceMins sliceMaxs)) ∧
      (sliceMins.length ≠ sliceMaxs.length → 0 < sliceMins.length →
        sliceMins.length ≤ slice.length →
        cwiseMin sliceMins (slice.take sliceMins.length) = sliceMins →
        isValidSliceChecked slice sliceMins sliceMaxs = none) ∧
      (slice.length < sliceMins.length →
        isValidSliceChecked slice sliceMins sliceMaxs = none) := by
  have hhead : sliceMins.length ≤ slice.length →
      eigenHead slice sliceMins.length = some (slice.take sliceMins.length) := by
    intro hle
    unfold eigenHead
    rw [if_pos hle]
  have htail : sliceMins.length ≤ slice.length →
      eigenTail slice ((slice.length : Int) - (sliceMins.length : Int)) =
        some (slice.drop sliceMins.length) := by
    intro hle
    unfold eigenTail
    rw [if_pos (by constructor <;> omega)]
    have hn : slice.length -
        ((slice.length : Int) - (sliceMins.length : Int)).toNat =
        sliceMins.length := by omega
    rw [hn]
  refine ⟨?_, ?_, ?_⟩
  · intro hlen hle
    simp only [isValidSliceChecked, isValidSlice, hhead hle, htail hle]
    simp only [if_neg (show ¬slice.length < sliceMins.length by omega)]
    by_cases h2 : (slice.take sliceMins.length).length = 0
    · simp only [if_pos h2]
    · simp only [if_neg h2]
      have hm : cwiseMinChecked sliceMins (slice.take sliceMins.length) =
          some (List.zipWith min sliceMins (slice.take sliceMins.length)) := by
        unfold cwiseMinChecked
        rw [if_pos (by simp only [List.length_take]; omega)]
      simp only [hm]
      simp only [cwiseMin, cwiseMax]
      cases hlo : (List.zipWith min sliceMins (slice.take sliceMins.length) ==
          sliceMins) with
      | false =>
        rw [if_neg (by simp [hlo])]
        simp [hlo]
      | true =>
        rw [if_pos (by simp [hlo])]
        have hM : cwiseMaxChecked sliceMaxs (slice.take sliceMins.length) =
            some (List.zipWith max sliceMaxs (slice.take sliceMins.length)) := by
          unfold cwiseMaxChecked
          rw [if_pos (by simp only [List.length_take]; omega)]
        simp only [hM]
        simp [hlo]
  · intro hne hpos hle hmins
    simp only [cwiseMin] at hmins
    simp only [isValidSliceChecked, hhead hle, htail hle]
    simp only [if_neg (show ¬slice.length < sliceMins.length by omega)]
    simp only [if_neg (show ¬(slice.take sliceMins.length).length = 0 by
      simp only [List.length_take]; omega)]
    have hm : cwiseMinChecked sliceMins (slice.take sliceMins.length) =
        some (List.zipWith min sliceMins (slice.take sliceMins.length)) := by
      unfold cwiseMinChecked
      rw [if_pos (by simp only [List.length_take]; omega)]
    simp only [hm]
    rw [if_pos (show (List.zipWith min sliceMins (slice.take sliceMins.length) ==
        sliceMins) = true by rw [hmins]; simp)]
    have hM : cwiseMaxChecked sliceMaxs (slice.take sliceMins.length) = none := by
      unfold cwiseMaxChecked
      rw [if_neg (by simp only [List.length_take]; omega)]
    simp only [hM]
  · intro hshort
    have hH : eigenHead slice sliceMins.length = none := by
      unfold eigenHead
      rw [if_neg (by omega)]
    cases hT : eigenTail slice ((slice.length : Int) - (sliceMins.length : Int)) with
    | none => simp [isValidSliceChecked, hH, hT]
    | some t => simp [isValidSliceChecked, hH, hT]

/-- Witness for the amended C10: equal bound lengths with a long-enough
candidate agree with the total embedding; unequal bound lengths with the
upper-bounds comparison reached yield none; a short candidate yields none. -/
theorem spec_C10_witness :
    isValidSliceChecked [3, 4] [2, 2] [5, 5] =
        some (isValidSlice [3, 4] [2, 2] [5, 5]) ∧
      isValidSliceChecked [3, 4] [2, 2] [5] = none ∧
      isValidSliceChecked [7] [2, 2] [5, 5] = none :=
  ⟨(spec_C10 [3, 4] [2, 2] [5, 5]).1 (by decide) (by decide),
   (spec_C10 [3, 4] [2, 2] [5]).2.1 (by decide) (by decide) (by decide) (by decide),
   (spec_C10 [7] [2, 2] [5, 5]).2.2 (by decide)⟩

/-- Witness for C8: a concrete dense array and a concrete sparse array. -/
theorem spec_C8_witness :
    getDimensions ⟨false, [3, 4, 2], 1⟩ =
        Except.ok (⟨false, [3, 4, 2], 1⟩ : MxArray).dims ∧
      getDimensions ⟨true, [3, 4, 2], 1⟩ =
        Except.error (MexError.fatal "Array must be dense.") :=
  ⟨((spec_C8 ⟨false, [3, 4, 2], 1⟩).1 rfl).1,
   ((spec_C8 ⟨true, [3, 4, 2], 1⟩).2 rfl).1⟩

end Mex
